import Mathlib

/-!
Verification of the ICC-profile generator `generate_red_profile.py`.

Bytes are modelled as `List Nat` (each element a byte value in 0..255 as
produced by the code). Python `struct.pack` of big-endian fixed-width
integers is modelled by explicit division and `% 256` on `Nat`.

One floating-point note: `create_curve_data` computes
`int((value / 255.0) * 65535)` in IEEE-754 double arithmetic. For every
integer `value` in 0..255 the double computation is exact and equals
`value * 257` (checked exhaustively over all 256 inputs; note
`65535 = 255 * 257`), so the function is embedded with exact integer
arithmetic `value * 65535 / 255`, which agrees with the Python result on
the whole input range.
-/

/-- Big-endian 4-byte packing, the model of Python `struct.pack` with a
big-endian unsigned 32-bit format. Python raises for arguments outside
`[0, 2^32)`; all call sites in the program stay far below that bound, and
the explicit `% 256` records the byte decomposition. -/
def pack32 (n : Nat) : List Nat :=
  [n / 16777216 % 256, n / 65536 % 256, n / 256 % 256, n % 256]

/-- Big-endian 2-byte packing, the model of Python `struct.pack` with a
big-endian unsigned 16-bit format. -/
def pack16 (n : Nat) : List Nat :=
  [n / 256 % 256, n % 256]

/-- Big-endian reading of a byte list, used to state what a 4-byte field
of the output means as a number. -/
def readBE (bs : List Nat) : Nat :=
  bs.foldl (fun a b => a * 256 + b) 0

/-- `create_curve_data(offset)` from the source: for each `i` in 0..255,
clamp `i + offset` to `[0, 255]` (`min(255, max(0, i + offset))`) and
rescale to 16 bits. The Python float step `int((value / 255.0) * 65535)`
is exact on this range (see the file header) and is embedded as
`value * 65535 / 255`. -/
def create_curve_data (offset : Int) : List Nat :=
  (List.range 256).map (fun (i : Nat) =>
    (min 255 (max 0 ((i : Int) + offset))).toNat * 65535 / 255)

/-- `pad_to_4bytes(data)` from the source: append zero bytes up to the
next 4-byte boundary. -/
def pad_to_4bytes (data : List Nat) : List Nat :=
  let remainder := data.length % 4
  if remainder ≠ 0 then data ++ List.replicate (4 - remainder) 0 else data

/-- `create_curve_tag(curve_values)` from the source: signature `curv`,
4 reserved zero bytes, big-endian count, then each value packed as a
big-endian 16-bit integer. -/
def create_curve_tag (curve_values : List Nat) : List Nat :=
  [0x63, 0x75, 0x72, 0x76] ++ [0, 0, 0, 0] ++ pack32 curve_values.length ++
    curve_values.flatMap pack16

/-- `create_xyz_tag(x, y, z)` from the source: signature `XYZ `,
4 reserved zero bytes, then the three big-endian 32-bit values. -/
def create_xyz_tag (x y z : Nat) : List Nat :=
  [0x58, 0x59, 0x5A, 0x20] ++ [0, 0, 0, 0] ++ pack32 x ++ pack32 y ++ pack32 z

/-- The model of Python `UnicodeEncodeError` as raised by
`str.encode(ascii)`: it carries the string being encoded and the index of
the first character the codec cannot encode (it does not say which input
field the string came from). -/
structure UEError where
  object : List Nat
  start : Nat
deriving DecidableEq

/-- Index of the first character with code point above 127, if any
(helper for the `ascii` codec model). -/
def firstBad (s : List Nat) (k : Nat) : Option Nat :=
  match s with
  | [] => none
  | c :: rest => if 127 < c then some k else firstBad rest (k + 1)

/-- The model of Python `text.encode(ascii)` on a string given as a list
of code points: identity on pure-ASCII input, otherwise it raises
`UnicodeEncodeError` at the first offending character. -/
def strEncodeAscii (s : List Nat) : Except UEError (List Nat) :=
  match firstBad s 0 with
  | some i => Except.error ⟨s, i⟩
  | none => Except.ok s

/-- `create_text_desc_tag(text)` from the source: signature `desc`,
4 reserved zero bytes, ASCII length `len(text) + 1`, the ASCII bytes plus
a NUL terminator, then the zero Unicode code, zero Unicode length, zero
script code and zero script length fields. The `encode(ascii)` call can
raise, hence the `Except`. -/
def create_text_desc_tag (text : List Nat) : Except UEError (List Nat) := do
  let ascii_text ← strEncodeAscii text
  pure ([0x64, 0x65, 0x73, 0x63] ++ [0, 0, 0, 0] ++ pack32 (text.length + 1) ++
    (ascii_text ++ [0]) ++ pack32 0 ++ pack32 0 ++ pack16 0 ++ [0])

/-- An environment record carrying the externally observable inputs that
could in principle influence a run: a clock reading (the script imports
`datetime`) and a stream of random values. The source never consults
either, which is what the determinism claim is about. -/
structure Env where
  now : Nat
  rand : Nat → Nat

/-- The fixed 128-byte profile header built in `create_icc_profile`
(lines 42-64 of the source): size placeholder, preferred CMM, version
2.1.0, class `mntr`, color space `RGB `, PCS `XYZ `, the constant
creation date bytes, `acsp` magic, platform `MSFT`, flags, device
manufacturer, device model, device attributes, rendering intent, the D50
PCS illuminant, creator `CLDE` and 44 reserved zero bytes. -/
def profileHeader : List Nat :=
  [0, 0, 0, 0] ++                                     -- profile_size_placeholder
  [0, 0, 0, 0] ++                                     -- preferred_cmm
  [0x02, 0x10, 0x00, 0x00] ++                         -- profile_version
  [0x6D, 0x6E, 0x74, 0x72] ++                         -- mntr
  [0x52, 0x47, 0x42, 0x20] ++                         -- RGB
  [0x58, 0x59, 0x5A, 0x20] ++                         -- XYZ
  [0x07, 0xE9, 0x0B, 0x0A, 0, 0, 0, 0, 0, 0, 0, 0] ++ -- creation_date
  [0x61, 0x63, 0x73, 0x70] ++                         -- acsp
  [0x4D, 0x53, 0x46, 0x54] ++                         -- MSFT
  [0, 0, 0, 0] ++                                     -- flags
  [0, 0, 0, 0] ++                                     -- device_manufacturer
  [0, 0, 0, 0] ++                                     -- device_model
  [0, 0, 0, 0, 0, 0, 0, 0] ++                         -- device_attributes
  [0, 0, 0, 0] ++                                     -- rendering_intent
  pack32 0x0000F6D6 ++ pack32 0x00010000 ++ pack32 0x0000D32D ++ -- pcs_illuminant
  [0x43, 0x4C, 0x44, 0x45] ++                         -- CLDE
  List.replicate 44 0                                 -- reserved

/-- The per-tag loop of `create_icc_profile` (lines 139-152), entry half:
walking the `(signature, payload)` list with the running offset cursor,
pad each payload to 4 bytes and record `(signature, cursor, paddedLength)`;
the cursor advances by the padded length. -/
def tagEntries (tags : List (List Nat × List Nat)) (cur : Nat) :
    List (List Nat × Nat × Nat) :=
  match tags with
  | [] => []
  | (sig, d) :: rest =>
    let padded := pad_to_4bytes d
    (sig, cur, padded.length) :: tagEntries rest (cur + padded.length)

/-- The per-tag loop of `create_icc_profile` (lines 139-152), data half:
the concatenation of the padded payloads in input order. The source
builds the entry list and this data section in one loop; the two Lean
functions compute the same two accumulators. -/
def tagDataSection (tags : List (List Nat × List Nat)) : List Nat :=
  match tags with
  | [] => []
  | (_, d) :: rest => pad_to_4bytes d ++ tagDataSection rest

/-- Serialization of one tag-table entry (lines 144-148): the 4-byte
signature, the big-endian offset and the big-endian padded length. -/
def entryBytes (e : List Nat × Nat × Nat) : List Nat :=
  e.1 ++ pack32 e.2.1 ++ pack32 e.2.2

/-- Lines 119-162 of `create_icc_profile`: place the data section after
the header and tag table (cursor starts at `128 + 4 + count * 12`),
serialize the tag table (count then entries), concatenate header, table
and data, and patch the big-endian total length over the first 4 bytes.
The source writes `tag_count = 9` literally; here it is `tags.length`,
which equals 9 for the one tag list the program builds. -/
def assembleProfile (tags : List (List Nat × List Nat)) : List Nat :=
  let tag_count := tags.length
  let current_offset := 128 + 4 + tag_count * 12
  let tag_table := pack32 tag_count ++
    (tagEntries tags current_offset).flatMap entryBytes
  let profile := profileHeader ++ tag_table ++ tagDataSection tags
  pack32 profile.length ++ profile.drop 4

/-- The red tone-curve tag (offset 22), line 83. -/
def red_curve_tag : List Nat := create_curve_tag (create_curve_data 22)

/-- The green tone-curve tag (offset 0), line 84. -/
def green_curve_tag : List Nat := create_curve_tag (create_curve_data 0)

/-- The blue tone-curve tag (offset 0), line 85. -/
def blue_curve_tag : List Nat := create_curve_tag (create_curve_data 0)

/-- The D50 white-point tag, line 112. -/
def wtpt_tag : List Nat := create_xyz_tag 0x0000F6D6 0x00010000 0x0000D32D

/-- The red-primary tag, line 115. -/
def rXYZ_tag : List Nat := create_xyz_tag 0x0000F351 0x00010000 0x0000D32D

/-- The green-primary tag, line 116. -/
def gXYZ_tag : List Nat := create_xyz_tag 0x00006FA2 0x00010000 0x0000D32D

/-- The blue-primary tag, line 117 (same three constants as the
green-primary tag). -/
def bXYZ_tag : List Nat := create_xyz_tag 0x00006FA2 0x00010000 0x0000D32D

/-- The code points of the description string literal
`Red+22 Test Profile` (line 101). -/
def descText : List Nat :=
  [82, 101, 100, 43, 50, 50, 32, 84, 101, 115, 116, 32,
   80, 114, 111, 102, 105, 108, 101]

/-- The code points of the copyright string literal `Public Domain`
(line 102). -/
def cprtText : List Nat :=
  [80, 117, 98, 108, 105, 99, 32, 68, 111, 109, 97, 105, 110]

/-- `tag_signatures` (lines 124-134): the ordered
`(signature, payload)` list, parameterized by the two text tags the
source assigns just above it. -/
def tag_signatures (desc_tag copyright_tag : List Nat) :
    List (List Nat × List Nat) :=
  [([0x64, 0x65, 0x73, 0x63], desc_tag),
   ([0x63, 0x70, 0x72, 0x74], copyright_tag),
   ([0x77, 0x74, 0x70, 0x74], wtpt_tag),
   ([0x72, 0x58, 0x59, 0x5A], rXYZ_tag),
   ([0x67, 0x58, 0x59, 0x5A], gXYZ_tag),
   ([0x62, 0x58, 0x59, 0x5A], bXYZ_tag),
   ([0x72, 0x54, 0x52, 0x43], red_curve_tag),
   ([0x67, 0x54, 0x52, 0x43], green_curve_tag),
   ([0x62, 0x54, 0x52, 0x43], blue_curve_tag)]

/-- `create_icc_profile` with the two text-field literals abstracted as
parameters (the claim about non-ASCII text quantifies over them; the
source passes the two constants `descText` and `cprtText`). The
`encode(ascii)` calls happen while the tags are built, before any
assembly, so a bad character surfaces as `Except.error` and nothing is
assembled. The `Env` argument records that neither the clock nor any
randomness is consulted. -/
def create_icc_profile_texts (descT cprtT : List Nat) (_env : Env) :
    Except UEError (List Nat) := do
  let desc_tag ← create_text_desc_tag descT
  let copyright_tag ← create_text_desc_tag cprtT
  pure (assembleProfile (tag_signatures desc_tag copyright_tag))

/-- `create_icc_profile()` as the source runs it, with its two hard-coded
text literals. -/
def create_icc_profile (env : Env) : Except UEError (List Nat) :=
  create_icc_profile_texts descText cprtText env

/-- The tag list of the generated profile (the text tags encode without
error because both literals are pure ASCII). -/
def redTags : List (List Nat × List Nat) :=
  tag_signatures
    ((create_text_desc_tag descText).toOption.getD [])
    ((create_text_desc_tag cprtText).toOption.getD [])

/-- The byte sequence of the generated profile. -/
def redProfile : List Nat := assembleProfile redTags

/-- The model of `main()` (lines 166-175): compute the profile, then open
the output file and write the complete byte sequence. The profile is
computed before the file is opened, so when `create_icc_profile_texts`
raises, the exception propagates first and no file (in particular no
partial file) is produced; `none` models that absence. -/
def mainOutput (descT cprtT : List Nat) (env : Env) : Option (List Nat) :=
  match create_icc_profile_texts descT cprtT env with
  | Except.ok p => some p
  | Except.error _ => none

/-- The sample formula as the spec words it (spec-side definition, for
comparison with the source-side `create_curve_data`):
`round(clamp(i + o, 0, 255) / 255 * 65535)`, with round-to-nearest on the
exact rational `a / b` realized on naturals as `(2 * a + b) / (2 * b)`.
Here the division is exact, so the rounding mode cannot matter. -/
def buildToneCurveSpecSample (o : Int) (i : Nat) : Nat :=
  let clamped := min 255 (max 0 ((i : Int) + o))
  (clamped.toNat * 65535 * 2 + 255) / 510

lemma mul65535_div255 (c : Nat) : c * 65535 / 255 = c * 257 := by
  omega

lemma round_half_up_510 (n : Nat) : (n * 65535 * 2 + 255) / 510 = n * 257 := by
  omega

lemma spec_sample_closed (o : Int) (i : Nat) :
    buildToneCurveSpecSample o i = (min 255 (max 0 ((i : Int) + o))).toNat * 257 := by
  unfold buildToneCurveSpecSample
  exact round_half_up_510 _

lemma create_curve_data_getElem? (o : Int) (i : Nat) (hi : i < 256) :
    (create_curve_data o)[i]? = some ((min 255 (max 0 ((i : Int) + o))).toNat * 257) := by
  unfold create_curve_data
  rw [List.getElem?_map, List.getElem?_range hi]
  simp [mul65535_div255]

/-- Claim C1: for every offset `o` in `[-255, 255]` and every index `i`
in `[0, 255]`, the `i`-th sample of `create_curve_data o` equals the spec
formula `round(clamp(i + o, 0, 255) / 255 * 65535)`; for offset 0 the
curve is the identity ramp `round(i / 255 * 65535)`, with sample 0 equal
to 0 and sample 255 equal to 65535. -/
theorem curve_matches_spec_formula (o : Int) (ho1 : -255 ≤ o) (ho2 : o ≤ 255)
    (i : Nat) (hi : i < 256) :
    (create_curve_data o)[i]? = some (buildToneCurveSpecSample o i)
    ∧ (create_curve_data 0)[i]? = some ((i * 65535 * 2 + 255) / 510)
    ∧ (create_curve_data 0)[0]? = some 0
    ∧ (create_curve_data 0)[255]? = some 65535 := by
  refine ⟨?_, ?_, ?_, ?_⟩
  · rw [create_curve_data_getElem? o i hi, spec_sample_closed]
  · rw [create_curve_data_getElem? 0 i hi]
    congr 1
    have h0 : (min 255 (max 0 ((i : Int) + 0))).toNat = i := by omega
    rw [h0]
    omega
  · rw [create_curve_data_getElem? 0 0 (by omega)]
    decide
  · rw [create_curve_data_getElem? 0 255 (by omega)]
    decide

/-- Witness for C1 at offset 22 and index 10. -/
theorem curve_matches_spec_formula_witness :
    (create_curve_data 22)[10]? = some (buildToneCurveSpecSample 22 10)
    ∧ (create_curve_data 0)[10]? = some ((10 * 65535 * 2 + 255) / 510)
    ∧ (create_curve_data 0)[0]? = some 0
    ∧ (create_curve_data 0)[255]? = some 65535 :=
  curve_matches_spec_formula 22 (by decide) (by decide) 10 (by decide)

lemma pad_to_4bytes_length_mod (x : List Nat) : (pad_to_4bytes x).length % 4 = 0 := by
  simp only [pad_to_4bytes]
  by_cases h : x.length % 4 ≠ 0
  · rw [if_pos h, List.length_append, List.length_replicate]
    omega
  · rw [if_neg h]
    omega

lemma pad_to_4bytes_of_aligned {x : List Nat} (h : x.length % 4 = 0) :
    pad_to_4bytes x = x := by
  unfold pad_to_4bytes
  simp [h]

/-- Claim C7: `pad_to_4bytes` is idempotent, and on data whose length is
already a multiple of 4 it is the identity. -/
theorem pad_to_4bytes_idempotent (x : List Nat) :
    pad_to_4bytes (pad_to_4bytes x) = pad_to_4bytes x
    ∧ (x.length % 4 = 0 → pad_to_4bytes x = x) := by
  exact ⟨pad_to_4bytes_of_aligned (pad_to_4bytes_length_mod x),
    fun h => pad_to_4bytes_of_aligned h⟩

/-- Witness for C7: idempotence at `[1, 2, 3]` and the no-op case at the
aligned list `[1, 2, 3, 4]`. -/
theorem pad_to_4bytes_idempotent_witness :
    pad_to_4bytes (pad_to_4bytes [1, 2, 3]) = pad_to_4bytes [1, 2, 3]
    ∧ pad_to_4bytes [1, 2, 3, 4] = [1, 2, 3, 4] :=
  ⟨(pad_to_4bytes_idempotent [1, 2, 3]).1,
   (pad_to_4bytes_idempotent [1, 2, 3, 4]).2 (by decide)⟩

lemma clamped_mono {o : Int} {i j : Nat} (hij : i ≤ j) :
    (min 255 (max 0 ((i : Int) + o))).toNat ≤ (min 255 (max 0 ((j : Int) + o))).toNat := by
  have hc : (i : Int) ≤ (j : Int) := Int.ofNat_le.mpr hij
  have h1 : min 255 (max 0 ((i : Int) + o)) ≤ min 255 (max 0 ((j : Int) + o)) :=
    min_le_min le_rfl (max_le_max le_rfl (by omega))
  exact Int.toNat_le_toNat h1

/-- Claim C8: for every offset, `create_curve_data` has length exactly
256 and its samples are monotonically non-decreasing in the index. -/
theorem curve_length_and_monotone (o : Int) (i j : Nat) (hij : i ≤ j)
    (hj : j < 256) :
    (create_curve_data o).length = 256
    ∧ (create_curve_data o).getD i 0 ≤ (create_curve_data o).getD j 0 := by
  constructor
  · simp [create_curve_data]
  · have hi : i < 256 := lt_of_le_of_lt hij hj
    rw [List.getD_eq_getElem?_getD, List.getD_eq_getElem?_getD,
      create_curve_data_getElem? o i hi, create_curve_data_getElem? o j hj]
    simpa using Nat.mul_le_mul_right 257 (clamped_mono hij)

/-- Witness for C8 at offset 22 and indices 100 and 200. -/
theorem curve_length_and_monotone_witness :
    (create_curve_data 22).length = 256
    ∧ (create_curve_data 22).getD 100 0 ≤ (create_curve_data 22).getD 200 0 :=
  curve_length_and_monotone 22 100 200 (by decide) (by decide)

/-- Claim C9: for every integer offset, including values outside
`[-255, 255]`, every sample of `create_curve_data` lies in `[0, 65535]`,
so packing it as an unsigned big-endian 16-bit value is value-preserving
and never fails. -/
theorem curve_samples_bounded (o : Int) (x : Nat)
    (hx : x ∈ create_curve_data o) :
    x ≤ 65535 ∧ readBE (pack16 x) = x := by
  have hb : x ≤ 65535 := by
    unfold create_curve_data at hx
    obtain ⟨i, _, rfl⟩ := List.mem_map.mp hx
    have h1 : (min 255 (max 0 ((i : Int) + o))).toNat ≤ 255 := by
      have : min 255 (max 0 ((i : Int) + o)) ≤ 255 := min_le_left _ _
      omega
    calc (min 255 (max 0 ((i : Int) + o))).toNat * 65535 / 255
        ≤ 255 * 65535 / 255 :=
          Nat.div_le_div_right (Nat.mul_le_mul_right 65535 h1)
      _ = 65535 := by norm_num
  refine ⟨hb, ?_⟩
  simp only [readBE, pack16, List.foldl]
  omega

/-- Witness for C9 at offset 300 (outside `[-255, 255]`) and the sample
value 65535, which the saturated curve contains. -/
theorem curve_samples_bounded_witness :
    (65535 : Nat) ≤ 65535 ∧ readBE (pack16 65535) = 65535 :=
  curve_samples_bounded 300 65535 (by decide)

/-- The profile bytes before the size patch: header, tag table, data
section (line 158 of the source). -/
def profileBody (tags : List (List Nat × List Nat)) : List Nat :=
  profileHeader ++
    (pack32 tags.length ++
      (tagEntries tags (128 + 4 + tags.length * 12)).flatMap entryBytes) ++
    tagDataSection tags

lemma assembleProfile_eq (tags : List (List Nat × List Nat)) :
    assembleProfile tags =
      pack32 (profileBody tags).length ++ (profileBody tags).drop 4 := rfl

lemma profileHeader_length : profileHeader.length = 128 := by rfl

lemma profileBody_length_ge (tags : List (List Nat × List Nat)) :
    128 ≤ (profileBody tags).length := by
  simp only [profileBody, List.length_append, profileHeader_length]
  omega

lemma readBE_pack32 (n : Nat) (h : n < 4294967296) :
    readBE (pack32 n) = n := by
  simp only [readBE, pack32, List.foldl]
  omega

lemma take4_pack32_append (n : Nat) (l : List Nat) :
    (pack32 n ++ l).take 4 = pack32 n := by
  simp [pack32]

/-- Claim C2: for every assembled profile, the 4-byte big-endian size
field at byte offset 0 equals the total length in bytes of the assembled
byte sequence (the length stays below `2^32`, as Python `struct.pack`
requires for the size field). -/
theorem profile_size_field (tags : List (List Nat × List Nat))
    (h : (assembleProfile tags).length < 4294967296) :
    readBE ((assembleProfile tags).take 4) = (assembleProfile tags).length := by
  rw [assembleProfile_eq] at h ⊢
  have h4 : 128 ≤ (profileBody tags).length := profileBody_length_ge tags
  have hlen : (pack32 (profileBody tags).length ++ (profileBody tags).drop 4).length
      = (profileBody tags).length := by
    simp only [List.length_append, List.length_drop, pack32, List.length_cons,
      List.length_nil]
    omega
  rw [hlen] at h ⊢
  rw [take4_pack32_append]
  exact readBE_pack32 _ h

lemma flatMap_pack16_length (l : List Nat) : (l.flatMap pack16).length = 2 * l.length := by
  induction l with
  | nil => rfl
  | cons a t ih =>
    simp only [List.flatMap_cons, List.length_append, ih, pack16, List.length_cons,
      List.length_nil, List.length_singleton]
    omega

lemma create_curve_data_length (o : Int) : (create_curve_data o).length = 256 := by
  simp [create_curve_data]

lemma create_curve_tag_length (o : Int) :
    (create_curve_tag (create_curve_data o)).length = 524 := by
  simp only [create_curve_tag, List.length_append, flatMap_pack16_length,
    create_curve_data_length, pack32, List.length_cons, List.length_nil]

lemma pad_length_eq (x : List Nat) :
    (pad_to_4bytes x).length = x.length + (4 - x.length % 4) % 4 := by
  simp only [pad_to_4bytes]
  by_cases h : x.length % 4 ≠ 0
  · rw [if_pos h, List.length_append, List.length_replicate]
    omega
  · rw [if_neg h]
    omega

lemma padDescLen :
    (pad_to_4bytes ((create_text_desc_tag descText).toOption.getD [])).length = 44 := by
  decide

lemma padCprtLen :
    (pad_to_4bytes ((create_text_desc_tag cprtText).toOption.getD [])).length = 40 := by
  decide

lemma padWtptLen : (pad_to_4bytes wtpt_tag).length = 20 := by decide

lemma padRxyzLen : (pad_to_4bytes rXYZ_tag).length = 20 := by decide

lemma padGxyzLen : (pad_to_4bytes gXYZ_tag).length = 20 := by decide

lemma padBxyzLen : (pad_to_4bytes bXYZ_tag).length = 20 := by decide

lemma padRedCurveLen : (pad_to_4bytes red_curve_tag).length = 524 := by
  have h : red_curve_tag.length = 524 := by
    simp only [red_curve_tag]
    exact create_curve_tag_length 22
  rw [pad_length_eq, h]

lemma padGreenCurveLen : (pad_to_4bytes green_curve_tag).length = 524 := by
  have h : green_curve_tag.length = 524 := by
    simp only [green_curve_tag]
    exact create_curve_tag_length 0
  rw [pad_length_eq, h]

lemma padBlueCurveLen : (pad_to_4bytes blue_curve_tag).length = 524 := by
  have h : blue_curve_tag.length = 524 := by
    simp only [blue_curve_tag]
    exact create_curve_tag_length 0
  rw [pad_length_eq, h]

lemma entries_concrete :
    tagEntries redTags (128 + 4 + redTags.length * 12) =
      [([0x64, 0x65, 0x73, 0x63], 240, 44),
       ([0x63, 0x70, 0x72, 0x74], 284, 40),
       ([0x77, 0x74, 0x70, 0x74], 324, 20),
       ([0x72, 0x58, 0x59, 0x5A], 344, 20),
       ([0x67, 0x58, 0x59, 0x5A], 364, 20),
       ([0x62, 0x58, 0x59, 0x5A], 384, 20),
       ([0x72, 0x54, 0x52, 0x43], 404, 524),
       ([0x67, 0x54, 0x52, 0x43], 928, 524),
       ([0x62, 0x54, 0x52, 0x43], 1452, 524)] := by
  simp only [redTags, tag_signatures, tagEntries, List.length_cons, List.length_nil,
    padDescLen, padCprtLen, padWtptLen, padRxyzLen, padGxyzLen, padBxyzLen,
    padRedCurveLen, padGreenCurveLen, padBlueCurveLen]

lemma tagDataSection_redTags_length : (tagDataSection redTags).length = 1736 := by
  simp only [redTags, tag_signatures, tagDataSection, List.length_append,
    List.length_nil, padDescLen, padCprtLen, padWtptLen, padRxyzLen, padGxyzLen,
    padBxyzLen, padRedCurveLen, padGreenCurveLen, padBlueCurveLen]

lemma tableBytes_length :
    ((tagEntries redTags (128 + 4 + redTags.length * 12)).flatMap entryBytes).length
      = 108 := by
  rw [entries_concrete]
  rfl

lemma profileBody_redTags_length : (profileBody redTags).length = 1976 := by
  simp only [profileBody, List.length_append, profileHeader_length,
    tagDataSection_redTags_length, tableBytes_length, pack32, List.length_cons,
    List.length_nil]

lemma assembleProfile_length (tags : List (List Nat × List Nat)) :
    (assembleProfile tags).length = (profileBody tags).length := by
  rw [assembleProfile_eq]
  simp only [List.length_append, List.length_drop, pack32, List.length_cons,
    List.length_nil]
  have := profileBody_length_ge tags
  omega

/-- Witness for C2 at the one profile the program assembles. -/
theorem profile_size_field_witness :
    readBE ((assembleProfile redTags).take 4) = (assembleProfile redTags).length :=
  profile_size_field redTags
    (by rw [assembleProfile_length, profileBody_redTags_length]; norm_num)

lemma assembleProfile_drop (tags : List (List Nat × List Nat)) (n : Nat)
    (h : 4 ≤ n) :
    (assembleProfile tags).drop n = (profileBody tags).drop n := by
  rw [assembleProfile_eq]
  obtain ⟨m, rfl⟩ : ∃ m, n = (pack32 (profileBody tags).length).length + m :=
    ⟨n - 4, by simp only [pack32, List.length_cons, List.length_nil]; omega⟩
  rw [List.drop_append, List.drop_drop]
  congr 1

lemma redTags_length : redTags.length = 9 := rfl

/-- Claim C3: in the tag table of the assembled profile, the entry
offsets are strictly increasing, every `(offset, length)` span lies
inside the data section (which starts at `128 + 4 + 9 * 12 = 240` and
ends at the profile end), no two spans overlap, and consecutive spans
have no gap larger than 3 bytes (here the gaps are all 0). -/
theorem tag_table_layout :
    List.Chain' (fun a b => a.2.1 < b.2.1)
      (tagEntries redTags (128 + 4 + redTags.length * 12))
    ∧ (∀ e ∈ tagEntries redTags (128 + 4 + redTags.length * 12),
        128 + 4 + redTags.length * 12 ≤ e.2.1
        ∧ e.2.1 + e.2.2
            ≤ 128 + 4 + redTags.length * 12 + (tagDataSection redTags).length)
    ∧ List.Pairwise (fun a b => a.2.1 + a.2.2 ≤ b.2.1)
        (tagEntries redTags (128 + 4 + redTags.length * 12))
    ∧ List.Chain' (fun a b => b.2.1 ≤ a.2.1 + a.2.2 + 3)
        (tagEntries redTags (128 + 4 + redTags.length * 12)) := by
  rw [entries_concrete, tagDataSection_redTags_length, redTags_length]
  refine ⟨?_, ?_, ?_, ?_⟩
  · norm_num [List.chain'_cons, List.chain'_singleton]
  · norm_num [List.forall_mem_cons]
  · norm_num [List.pairwise_cons, List.forall_mem_cons]
  · norm_num [List.chain'_cons, List.chain'_singleton]

/-- Claim C4: the assembled profile records exactly 9 tags, and the tag
table lists them in the order description, copyright, white point, red
primary, green primary, blue primary, red tone curve, green tone curve,
blue tone curve; the 4-byte count field at offset 128 reads 9. -/
theorem tag_table_order :
    redTags.length = 9
    ∧ (tagEntries redTags (128 + 4 + redTags.length * 12)).map (fun e => e.1) =
        [[0x64, 0x65, 0x73, 0x63], [0x63, 0x70, 0x72, 0x74],
         [0x77, 0x74, 0x70, 0x74], [0x72, 0x58, 0x59, 0x5A],
         [0x67, 0x58, 0x59, 0x5A], [0x62, 0x58, 0x59, 0x5A],
         [0x72, 0x54, 0x52, 0x43], [0x67, 0x54, 0x52, 0x43],
         [0x62, 0x54, 0x52, 0x43]]
    ∧ ((assembleProfile redTags).drop 128).take 4 = pack32 9 := by
  refine ⟨rfl, ?_, ?_⟩
  · rw [entries_concrete]
    rfl
  · rw [assembleProfile_drop redTags 128 (by norm_num)]
    simp only [profileBody]
    rw [List.append_assoc, show (128 : Nat) = profileHeader.length from rfl,
      List.drop_left, List.append_assoc, take4_pack32_append]
    rfl

/-- Claim C6: the encoder is deterministic: two runs under any two
environments (clock reading, random stream) produce identical results,
because the code never consults either; the creation-date field is the
fixed 12-byte constant embedded verbatim at bytes 24..35 of the output
header. -/
theorem profile_deterministic (e1 e2 : Env) :
    create_icc_profile e1 = create_icc_profile e2
    ∧ create_icc_profile e1 = Except.ok (assembleProfile redTags)
    ∧ ((assembleProfile redTags).drop 24).take 12
        = [0x07, 0xE9, 0x0B, 0x0A, 0, 0, 0, 0, 0, 0, 0, 0] := by
  refine ⟨rfl, rfl, ?_⟩
  rw [assembleProfile_drop redTags 24 (by norm_num)]
  rfl

set_option maxRecDepth 4000 in
/-- Claim C10: the green-primary and blue-primary tags have byte-for-byte
identical payloads, encoding X = 0x00006FA2, Y = 0x00010000,
Z = 0x0000D32D; in the assembled profile the 20-byte spans at their two
tag-table offsets (364 and 384) hold the same bytes, and only the
signatures `gXYZ` and `bXYZ` in the table entries differ. -/
theorem gXYZ_bXYZ_payloads :
    gXYZ_tag = bXYZ_tag
    ∧ gXYZ_tag = [0x58, 0x59, 0x5A, 0x20, 0, 0, 0, 0] ++
        pack32 0x00006FA2 ++ pack32 0x00010000 ++ pack32 0x0000D32D
    ∧ ((assembleProfile redTags).drop 364).take 20
        = ((assembleProfile redTags).drop 384).take 20
    ∧ (tagEntries redTags (128 + 4 + redTags.length * 12)).getD 4 ([], 0, 0)
        = ([0x67, 0x58, 0x59, 0x5A], 364, 20)
    ∧ (tagEntries redTags (128 + 4 + redTags.length * 12)).getD 5 ([], 0, 0)
        = ([0x62, 0x58, 0x59, 0x5A], 384, 20) := by
  refine ⟨rfl, rfl, ?_, ?_, ?_⟩
  · rw [assembleProfile_drop redTags 364 (by norm_num),
      assembleProfile_drop redTags 384 (by norm_num)]
    simp only [profileBody]
    rw [entries_concrete]
    rfl
  · rw [entries_concrete]
    rfl
  · rw [entries_concrete]
    rfl

lemma firstBad_none_all_ascii {s : List Nat} :
    ∀ {k : Nat}, firstBad s k = none → ∀ c ∈ s, c ≤ 127 := by
  induction s with
  | nil =>
    intro k _ c hc
    exact absurd hc (List.not_mem_nil c)
  | cons a t ih =>
    intro k h c hc
    unfold firstBad at h
    by_cases ha : 127 < a
    · rw [if_pos ha] at h
      exact absurd h (by simp)
    · rw [if_neg ha] at h
      rcases List.mem_cons.mp hc with rfl | hct
      · omega
      · exact ih h c hct

lemma firstBad_some_spec {s : List Nat} :
    ∀ {k i : Nat}, firstBad s k = some i →
      k ≤ i ∧ i - k < s.length ∧ 127 < s.getD (i - k) 0 := by
  induction s with
  | nil =>
    intro k i h
    exact absurd h (by simp [firstBad])
  | cons a t ih =>
    intro k i h
    unfold firstBad at h
    by_cases ha : 127 < a
    · rw [if_pos ha] at h
      obtain rfl : k = i := by injection h
      simpa using ha
    · rw [if_neg ha] at h
      obtain ⟨hk, hl, hg⟩ := ih h
      refine ⟨by omega, by simp only [List.length_cons]; omega, ?_⟩
      have hik : i - k = (i - (k + 1)) + 1 := by omega
      rw [hik, List.getD_cons_succ]
      exact hg

lemma strEncodeAscii_error_of_bad {s : List Nat} (h : ∃ c ∈ s, 127 < c) :
    ∃ i, strEncodeAscii s = Except.error ⟨s, i⟩
      ∧ i < s.length ∧ 127 < s.getD i 0 := by
  unfold strEncodeAscii
  cases hf : firstBad s 0 with
  | none =>
    obtain ⟨c, hc, hcgt⟩ := h
    exact absurd (firstBad_none_all_ascii hf c hc) (by omega)
  | some i =>
    obtain ⟨_, hl, hg⟩ := firstBad_some_spec hf
    simp only [Nat.sub_zero] at hl hg
    exact ⟨i, rfl, hl, hg⟩

lemma strEncodeAscii_ok_of_ascii {s : List Nat} (h : ∀ c ∈ s, c ≤ 127) :
    strEncodeAscii s = Except.ok s := by
  unfold strEncodeAscii
  cases hf : firstBad s 0 with
  | none => rfl
  | some i =>
    obtain ⟨_, hl, hg⟩ := firstBad_some_spec hf
    simp only [Nat.sub_zero] at hl hg
    have hmem : s.getD i 0 ∈ s := by
      rw [List.getD_eq_getElem s 0 hl]
      exact List.getElem_mem hl
    have := h (s.getD i 0) hmem
    omega

/-- Claim C5, counterexample to "the error identifies the offending
field": the error value raised when the description field is the
non-ASCII one (code point 946 in the description, ASCII `P` in the
copyright) is exactly the error value raised when the copyright field is
the non-ASCII one (arguments swapped). The raised `UnicodeEncodeError`
carries only the offending string and position, so an observer of the
error cannot tell which field offended, and it is not a `ValidationError`
naming the field. -/
theorem nonascii_error_not_field_identifying :
    create_icc_profile_texts [946] [80] ⟨0, fun n => n⟩
      = create_icc_profile_texts [80] [946] ⟨0, fun n => n⟩
    ∧ create_icc_profile_texts [946] [80] ⟨0, fun n => n⟩
      = Except.error ⟨[946], 0⟩ :=
  ⟨rfl, rfl⟩

/-- Claim C5 as amended: if the description or the copyright text
contains a character outside 0..127, the encoder raises a
`UnicodeEncodeError` (Python's built-in encoding error, not a custom
`ValidationError` naming the field) during tag construction, before the
output file is opened, so no partial output file is produced; the error
carries the offending string and the position of an offending
character. -/
theorem nonascii_rejected (descT cprtT : List Nat) (env : Env)
    (h : (∃ c ∈ descT, 127 < c) ∨ (∃ c ∈ cprtT, 127 < c)) :
    mainOutput descT cprtT env = none
    ∧ ∃ e : UEError, create_icc_profile_texts descT cprtT env = Except.error e
        ∧ (e.object = descT ∨ e.object = cprtT)
        ∧ 127 < e.object.getD e.start 0 := by
  by_cases hd : ∃ c ∈ descT, 127 < c
  · obtain ⟨i, he, hl, hg⟩ := strEncodeAscii_error_of_bad hd
    have herr : create_icc_profile_texts descT cprtT env = Except.error ⟨descT, i⟩ := by
      simp [create_icc_profile_texts, create_text_desc_tag, he, Bind.bind, Except.bind]
    refine ⟨?_, ⟨descT, i⟩, herr, Or.inl rfl, hg⟩
    simp [mainOutput, herr]
  · have hdok : ∀ c ∈ descT, c ≤ 127 := by
      intro c hc
      by_contra hlt
      exact hd ⟨c, hc, by omega⟩
    have hcbad : ∃ c ∈ cprtT, 127 < c := h.resolve_left hd
    obtain ⟨i, he, hl, hg⟩ := strEncodeAscii_error_of_bad hcbad
    have hok : strEncodeAscii descT = Except.ok descT := strEncodeAscii_ok_of_ascii hdok
    have herr : create_icc_profile_texts descT cprtT env = Except.error ⟨cprtT, i⟩ := by
      simp [create_icc_profile_texts, create_text_desc_tag, hok, he, Bind.bind,
        Except.bind, Pure.pure, Except.pure]
    refine ⟨?_, ⟨cprtT, i⟩, herr, Or.inr rfl, hg⟩
    simp [mainOutput, herr]

/-- Witness for C5 (amended) with a non-ASCII description (code point
946) and the program's own copyright literal. -/
theorem nonascii_rejected_witness :
    mainOutput [946] cprtText ⟨0, fun n => n⟩ = none
    ∧ ∃ e : UEError,
        create_icc_profile_texts [946] cprtText ⟨0, fun n => n⟩ = Except.error e
        ∧ (e.object = [946] ∨ e.object = cprtText)
        ∧ 127 < e.object.getD e.start 0 :=
  nonascii_rejected [946] cprtText ⟨0, fun n => n⟩
    (Or.inl ⟨946, by decide, by decide⟩)

/-- Witness for C6 at two distinct environments (different clock values
and random streams). -/
theorem profile_deterministic_witness :
    create_icc_profile ⟨0, fun n => n⟩ = create_icc_profile ⟨1, fun n => n + 1⟩
    ∧ create_icc_profile ⟨0, fun n => n⟩ = Except.ok (assembleProfile redTags)
    ∧ ((assembleProfile redTags).drop 24).take 12
        = [0x07, 0xE9, 0x0B, 0x0A, 0, 0, 0, 0, 0, 0, 0, 0] :=
  profile_deterministic ⟨0, fun n => n⟩ ⟨1, fun n => n + 1⟩
